import Mathlib

/-!
Verification of the IAM→Rucio synchronization script
(`iam-rucio-sync/sync_iam_rucio.py`): the DN transform
`make_gridmap_compatible`, the paginated user fetch `get_list_of_users`,
and the three provisioning passes `sync_accounts`, `sync_oidc`,
`sync_x509`, shallowly embedded as executable Lean functions.
-/

namespace IamRucioSync

/-! ### DN transform (`make_gridmap_compatible`, lines 201-210) -/

/-- Python `str.split(',')` on a character list: split on every comma,
keeping empty components; the empty string yields one empty component. -/
def splitOnComma : List Char → List (List Char)
  | [] => [[]]
  | ',' :: cs => [] :: splitOnComma cs
  | c :: cs =>
    match splitOnComma cs with
    | [] => [[c]]
    | g :: gs => (c :: g) :: gs

/-- `make_gridmap_compatible(certificate)`: split on `','`, reverse the
component list, join with `'/'`, prepend a leading `'/'`. -/
def make_gridmap_compatible (certificate : String) : String :=
  let parts := splitOnComma certificate.toList
  let parts := parts.reverse
  let joined := List.intercalate ['/'] parts
  String.mk ('/' :: joined)

/-- The spec's description of the DN transform, written with
`String.intercalate`: split the input on `','`, reverse the sequence,
join with `'/'`, prepend a leading `'/'`. -/
def toCanonicalKey (s : String) : String :=
  "/" ++ String.intercalate "/" (((splitOnComma s.toList).reverse).map String.mk)

/-! ### Data model: directory (IAM/SCIM) user records -/

/-- One entry of the `certificates` array of the Indigo vendor extension;
the `subjectDn` field is optional. -/
structure Certificate where
  subjectDn : Option String
deriving DecidableEq

/-- The vendor extension block keyed by
`urn:indigo-dc:scim:schemas:IndigoUser`; its `certificates` list is
optional. -/
structure IndigoUser where
  certificates : Option (List Certificate)
deriving DecidableEq

/-- A SCIM user record, restricted to the fields the script consumes:
`userName`, `emails[i].value`, `id`, and the optional Indigo extension. -/
structure IamUser where
  userName : String
  emails : List String
  id : String
  indigoUser : Option IndigoUser
deriving DecidableEq

/-! ### Store model

The Rucio account/identity store (`rucio.core.account`,
`rucio.core.identity`, `set_local_account_limit`,
`add_account_attribute`) is an external collaborator, not part of this
repository. -/

/-- Identity kinds used by the script (`IdentityType.OIDC`,
`IdentityType.X509`). -/
inductive IdType
  | OIDC
  | X509
deriving DecidableEq

/-- Modelled from the spec: the external AccountStore/IdentityStore
state (§6). `accounts` and `identities` are the existing records;
`rses` is the resource-scope catalog returned by `list_rses`; the
`failCreate`/`failQuota`/`failAttr`/`failLink` sets pick out the inputs
on which the corresponding store call raises a store-specific error, as
§6 allows each call to do. -/
structure RucioState where
  accounts : List String
  identities : List (String × IdType)
  rses : List String
  failCreate : List String
  failQuota : List String
  failAttr : List String
  failLink : List String
deriving DecidableEq

/-- Modelled from the spec: `accountExists(username) -> bool` (§6). -/
def account_exists (s : RucioState) (u : String) : Bool :=
  s.accounts.contains u

/-- Modelled from the spec: `createAccount(username, type, email)`; may
fail with a store-specific error (`none`), otherwise records the new
account. -/
def add_account (s : RucioState) (u _email : String) : Option RucioState :=
  if s.failCreate.contains u || s.accounts.contains u then none
  else some { s with accounts := u :: s.accounts }

/-- Modelled from the spec: `grantQuota(username, resourceScopeId,
limit)`; may fail with a store-specific error. -/
def set_local_account_limit (s : RucioState) (u _rseId : String) (_limit : Nat) :
    Option RucioState :=
  if s.failQuota.contains u then none else some s

/-- Modelled from the spec: `setAttribute(username, key, value)`; may
fail with a store-specific error. -/
def add_account_attribute (s : RucioState) (u _key _value : String) :
    Option RucioState :=
  if s.failAttr.contains u then none else some s

/-- Modelled from the spec: `linkIdentity(identityKey, kind, username,
email)`; fails on a store-specific error, on "already linked", or on
"account missing" (§4.3b), otherwise records the link. -/
def add_account_identity (s : RucioState) (key : String) (t : IdType)
    (u _email : String) : Option RucioState :=
  if s.failLink.contains key || s.identities.contains (key, t)
      || !(s.accounts.contains u) then none
  else some { s with identities := (key, t) :: s.identities }

/-- A call submitted by the engine to the external store, in submission
order. -/
inductive Call
  | accountExistsQ (username : String)
  | addAccount (username email : String)
  | setLocalAccountLimit (username rseId : String) (limit : Nat)
  | addAccountAttribute (username key value : String)
  | addIdentity (identityKey : String) (kind : IdType) (username email : String)
deriving DecidableEq

/-- A Python exception escaping a pass: `indexError` for
`user['emails'][0]` on an empty list, `storeError` for an uncaught
store failure. -/
inductive PyErr
  | indexError
  | storeError
deriving DecidableEq

/-- Outcome of running one pass: the calls submitted to the store, the
debug-log lines emitted, the final store state, and the escaping
exception if any. -/
structure PassResult where
  trace : List Call
  log : List String
  state : RucioState
  err : Option PyErr
deriving DecidableEq

/-! ### The account pass (`sync_accounts`, lines 114-142) -/

/-- The quota loop of `sync_accounts` (lines 133-135): one
`set_local_account_limit(username, rse['id'], 1000000000000)` per RSE,
uncaught, aborting at the first failure. -/
def grantQuotas (u : String) : List String → RucioState → List Call × Option RucioState
  | [], s => ([], some s)
  | r :: rs, s =>
    let c := Call.setLocalAccountLimit u r 1000000000000
    match set_local_account_limit s u r 1000000000000 with
    | none => ([c], none)
    | some s1 =>
      let (cs, res) := grantQuotas u rs s1
      (c :: cs, res)

/-- One iteration of the `sync_accounts` loop body (lines 118-142):
read `userName` and `emails[0].value`, skip usernames longer than 25,
probe `account_exists`, and on absence create the account, grant quota
for every RSE, and attach the `admin` attribute inside a
`try/except: pass`. -/
def sync_accounts_user (u : IamUser) (s : RucioState) : PassResult :=
  match u.emails.head? with
  | none => ⟨[], [], s, some .indexError⟩
  | some email =>
    if u.userName.length > 25 then ⟨[], [], s, none⟩
    else if account_exists s u.userName then
      ⟨[Call.accountExistsQ u.userName], [], s, none⟩
    else
      match add_account s u.userName email with
      | none =>
        ⟨[Call.accountExistsQ u.userName, Call.addAccount u.userName email],
         [], s, some .storeError⟩
      | some s1 =>
        let logLine := "Created account for User " ++ u.userName ++ " ***"
        match grantQuotas u.userName s1.rses s1 with
        | (calls, none) =>
          ⟨Call.accountExistsQ u.userName :: Call.addAccount u.userName email :: calls,
           [logLine], s1, some .storeError⟩
        | (calls, some s2) =>
          let attrCall := Call.addAccountAttribute u.userName "admin" "True"
          match add_account_attribute s2 u.userName "admin" "True" with
          | none =>
            ⟨Call.accountExistsQ u.userName :: Call.addAccount u.userName email
               :: (calls ++ [attrCall]), [logLine], s2, none⟩
          | some s3 =>
            ⟨Call.accountExistsQ u.userName :: Call.addAccount u.userName email
               :: (calls ++ [attrCall]), [logLine], s3, none⟩

/-! ### The OIDC pass (`sync_oidc`, lines 144-168) -/

/-- One iteration of the `sync_oidc` loop body (lines 148-168): read
`userName`, `emails[0].value` and `id`, skip usernames longer than 25,
then inside a `try/except: pass` link the key
`"SUB=<id>, ISS=<iam_server>"` as an OIDC identity. -/
def sync_oidc_user (iam_server : String) (u : IamUser) (s : RucioState) : PassResult :=
  match u.emails.head? with
  | none => ⟨[], [], s, some .indexError⟩
  | some email =>
    if u.userName.length > 25 then ⟨[], [], s, none⟩
    else
      let key := "SUB=" ++ u.id ++ ", ISS=" ++ iam_server
      let c := Call.addIdentity key .OIDC u.userName email
      match add_account_identity s key .OIDC u.userName email with
      | none => ⟨[c], [], s, none⟩
      | some s1 =>
        ⟨[c], ["Added OIDC identity for User " ++ u.userName ++ " ***"], s1, none⟩

/-! ### The X509 pass (`sync_x509`, lines 170-199) -/

/-- The certificate loop of `sync_x509` (lines 183-199): for every
certificate carrying a `subjectDn`, transform it with
`make_gridmap_compatible` and link it as an X509 identity inside a
`try/except: pass`. -/
def sync_x509_cert (username email : String) :
    List Certificate → RucioState → List Call × List String × RucioState
  | [], s => ([], [], s)
  | ⟨none⟩ :: cs, s => sync_x509_cert username email cs s
  | ⟨some dn⟩ :: cs, s =>
    let key := make_gridmap_compatible dn
    let call := Call.addIdentity key .X509 username email
    match add_account_identity s key .X509 username email with
    | none =>
      let r := sync_x509_cert username email cs s
      (call :: r.1, r.2.1, r.2.2)
    | some s1 =>
      let r := sync_x509_cert username email cs s1
      (call :: r.1, ("Added X509 identity for User " ++ username ++ " ***") :: r.2.1, r.2.2)

/-- One iteration of the `sync_x509` loop body (lines 175-199): read
`userName` and `emails[0].value`, then (with no username-length check)
iterate over the Indigo extension's certificates if present. -/
def sync_x509_user (u : IamUser) (s : RucioState) : PassResult :=
  match u.emails.head? with
  | none => ⟨[], [], s, some .indexError⟩
  | some email =>
    match u.indigoUser with
    | none => ⟨[], [], s, none⟩
    | some ind =>
      match ind.certificates with
      | none => ⟨[], [], s, none⟩
      | some certs =>
        let r := sync_x509_cert u.userName email certs s
        ⟨r.1, r.2.1, r.2.2, none⟩

/-- Run a per-user loop body over a user list: accumulate calls and log
lines, thread the store state, and stop when an exception escapes the
body (side effects performed so far persist). -/
def runPass (f : IamUser → RucioState → PassResult) :
    List IamUser → RucioState → PassResult
  | [], s => ⟨[], [], s, none⟩
  | u :: us, s =>
    let r := f u s
    match r.err with
    | some e => ⟨r.trace, r.log, r.state, some e⟩
    | none =>
      let rest := runPass f us r.state
      ⟨r.trace ++ rest.trace, r.log ++ rest.log, rest.state, rest.err⟩

/-- `sync_accounts(iam_users)` over a store state. -/
def sync_accounts : List IamUser → RucioState → PassResult :=
  runPass sync_accounts_user

/-- `sync_oidc(iam_users)` over a store state; `iam_server` feeds the
`ISS=` part of the identity key. -/
def sync_oidc (iam_server : String) : List IamUser → RucioState → PassResult :=
  runPass (sync_oidc_user iam_server)

/-- `sync_x509(iam_users)` over a store state. -/
def sync_x509 : List IamUser → RucioState → PassResult :=
  runPass sync_x509_user

/-! ### Paginated fetch (`get_list_of_users`, lines 84-112)

User records on the wire are abstracted to their 0-based position in
the directory (a `Nat`); a page response carries `Resources`,
`itemsPerPage` and `totalResults` exactly as consumed by the loop. -/

/-- One page response of `GET /scim/Users`. -/
structure Page where
  resources : List Nat
  itemsPerPage : Nat
  totalResults : Nat

/-- The `while True` fetch loop (lines 96-109), with the page size
`count` as a parameter (100 in the source) and explicit fuel: request
the page at `startIndex`, append `Resources`, add `itemsPerPage` to
`users_so_far`, and continue at `startIndex + count` while
`users_so_far < totalResults`. Returns the accumulated records and the
number of page requests made, or `none` when the fuel is exhausted with
the loop still running. -/
def usersLoop (server : Nat → Page) (count : Nat) :
    Nat → Nat → List Nat → Nat → Option (List Nat × Nat)
  | 0, _, _, _ => none
  | fuel + 1, startIndex, acc, sofar =>
    let p := server startIndex
    let acc2 := acc ++ p.resources
    let sofar2 := sofar + p.itemsPerPage
    if sofar2 < p.totalResults then
      match usersLoop server count fuel (startIndex + count) acc2 sofar2 with
      | none => none
      | some (us, n) => some (us, n + 1)
    else
      some (acc2, 1)

/-- A directory holding `total` users served consistently at page size
`pageSize`: the page at 1-based `startIndex` holds the records at
0-based positions `startIndex - 1, ...`, at most `pageSize` of them,
and reports the true `itemsPerPage` and `totalResults`. -/
def honestServer (total pageSize : Nat) (startIndex : Nat) : Page :=
  let lo := startIndex - 1
  let n := min pageSize (total - lo)
  ⟨(List.range n).map (lo + ·), n, total⟩

/-- A server reporting an inconsistent total: every page is empty
(`itemsPerPage = 0`) while `totalResults = 1`. -/
def inconsistentServer : Nat → Page :=
  fun _ => ⟨[], 0, 1⟩

/-- `get_list_of_users` against a consistent directory of `total`
users, generalized over the page size (the source fixes it at 100),
starting at `startIndex = 1` with empty accumulators and fuel
`total + 1`. -/
def get_list_of_users (total pageSize : Nat) : Option (List Nat × Nat) :=
  usersLoop (honestServer total pageSize) pageSize (total + 1) 1 [] 0

/-! ### Concrete fixtures used by witnesses -/

/-- Fixture: an empty store with a single RSE and no induced failures. -/
def emptyStore : RucioState := ⟨[], [], ["RSE1"], [], [], [], []⟩

/-- Fixture: a user whose username has 26 characters, carrying one
certificate. -/
def u26 : IamUser :=
  ⟨"abcdefghijklmnopqrstuvwxyz", ["l@x"], "sub-l", some ⟨some [⟨some "CN=X"⟩]⟩⟩

/-- Fixture: a well-formed user with a short username and one
certificate. -/
def uAlice : IamUser := ⟨"alice", ["a@x"], "sub-a", some ⟨some [⟨some "CN=A"⟩]⟩⟩

/-- Fixture: a store where account creation fails for `"carol"`. -/
def failStore : RucioState := ⟨[], [], ["RSE1"], ["carol"], [], [], []⟩

/-- Fixture: a user whose account creation the store rejects (with
`failStore`). -/
def uCarol : IamUser := ⟨"carol", ["c@x"], "sub-c", none⟩

/-- Fixture: a user following `uCarol` in the account pass. -/
def uDave : IamUser := ⟨"dave", ["d@x"], "sub-d", none⟩

/-- Fixture: a user whose OIDC link call fails (no account exists for
them in `emptyStore`). -/
def uKay : IamUser := ⟨"kay", ["k@x"], "sub-k", none⟩

/-! ### Call-trace predicates -/

/-- Is the call an `account_exists` probe? -/
def isProbe : Call → Bool
  | Call.accountExistsQ _ => true
  | _ => false

/-- Is the call an `add_account` creation? -/
def isCreate : Call → Bool
  | Call.addAccount _ _ => true
  | _ => false

/-- The trace contains no existence probe. -/
def probeFree (l : List Call) : Bool :=
  l.all (fun c => !(isProbe c))

/-- Every `add_account` call in the trace is immediately preceded by an
`account_exists` probe for the same username. -/
def createProbed : List Call → Bool
  | [] => true
  | Call.addAccount _ _ :: _ => false
  | Call.accountExistsQ u :: Call.addAccount v _ :: rest => (v == u) && createProbed rest
  | _ :: rest => createProbed rest

/-- The trace does not begin with an `add_account` call. -/
def headNotCreate : List Call → Bool
  | Call.addAccount _ _ :: _ => false
  | _ => true

/-- `'/'`-joining at the character level: every component contributes a
leading `'/'` followed by itself. -/
def charGlue (ps : List (List Char)) : List Char :=
  (ps.map (fun p => '/' :: p)).flatten

/-! ### Helper lemmas -/

theorem runPass_append (f : IamUser → RucioState → PassResult) (us : List IamUser) :
    ∀ (vs : List IamUser) (s : RucioState), (runPass f us s).err = none →
      runPass f (us ++ vs) s =
        ⟨(runPass f us s).trace ++ (runPass f vs (runPass f us s).state).trace,
         (runPass f us s).log ++ (runPass f vs (runPass f us s).state).log,
         (runPass f vs (runPass f us s).state).state,
         (runPass f vs (runPass f us s).state).err⟩ := by
  induction us with
  | nil => intro vs s _; simp [runPass]
  | cons u us ih =>
    intro vs s h
    cases hr : (f u s).err with
    | some e =>
      exfalso
      simp [runPass, hr] at h
    | none =>
      have hu : (runPass f (u :: us) s).err = (runPass f us (f u s).state).err := by
        simp [runPass, hr]
      rw [hu] at h
      simp only [List.cons_append, runPass, hr, List.append_eq]
      rw [ih vs (f u s).state h]
      simp [runPass, hr, List.append_assoc]

theorem runPass_cons_fail (f : IamUser → RucioState → PassResult) (u : IamUser)
    (us : List IamUser) (s : RucioState) (e : PyErr)
    (h : f u s = ⟨[], [], s, some e⟩) :
    runPass f (u :: us) s = ⟨[], [], s, some e⟩ := by
  simp [runPass, h]

theorem runPass_cons_err (f : IamUser → RucioState → PassResult) (u : IamUser)
    (us : List IamUser) (s : RucioState) (e : PyErr)
    (h : (f u s).err = some e) :
    runPass f (u :: us) s = ⟨(f u s).trace, (f u s).log, (f u s).state, some e⟩ := by
  simp [runPass, h]

theorem runPass_cons_ok (f : IamUser → RucioState → PassResult) (u : IamUser)
    (us : List IamUser) (s : RucioState) (h : (f u s).err = none) :
    runPass f (u :: us) s
      = ⟨(f u s).trace ++ (runPass f us (f u s).state).trace,
         (f u s).log ++ (runPass f us (f u s).state).log,
         (runPass f us (f u s).state).state,
         (runPass f us (f u s).state).err⟩ := by
  simp [runPass, h]

theorem runPass_single (f : IamUser → RucioState → PassResult)
    (u : IamUser) (s : RucioState) :
    runPass f [u] s = ⟨(f u s).trace, (f u s).log, (f u s).state, (f u s).err⟩ := by
  cases h : (f u s).err <;> simp [runPass, h]

theorem sync_accounts_user_empty_email (u : IamUser) (s : RucioState)
    (h : u.emails = []) :
    sync_accounts_user u s = ⟨[], [], s, some PyErr.indexError⟩ := by
  simp [sync_accounts_user, h]

theorem sync_oidc_user_empty_email (iss : String) (u : IamUser) (s : RucioState)
    (h : u.emails = []) :
    sync_oidc_user iss u s = ⟨[], [], s, some PyErr.indexError⟩ := by
  simp [sync_oidc_user, h]

theorem sync_x509_user_empty_email (u : IamUser) (s : RucioState)
    (h : u.emails = []) :
    sync_x509_user u s = ⟨[], [], s, some PyErr.indexError⟩ := by
  simp [sync_x509_user, h]

theorem sync_accounts_user_skip (u : IamUser) (s : RucioState) (e : String)
    (he : u.emails.head? = some e) (hlen : u.userName.length > 25) :
    sync_accounts_user u s = ⟨[], [], s, none⟩ := by
  unfold sync_accounts_user
  rw [he]
  simp only
  rw [if_pos (by omega)]

theorem sync_oidc_user_skip (iss : String) (u : IamUser) (s : RucioState) (e : String)
    (he : u.emails.head? = some e) (hlen : u.userName.length > 25) :
    sync_oidc_user iss u s = ⟨[], [], s, none⟩ := by
  unfold sync_oidc_user
  rw [he]
  simp only
  rw [if_pos (by omega)]

theorem sync_oidc_user_ok (iss : String) (u : IamUser) (s : RucioState) (e : String)
    (he : u.emails.head? = some e) (hlen : u.userName.length ≤ 25) :
    (sync_oidc_user iss u s).trace
      = [Call.addIdentity ("SUB=" ++ u.id ++ ", ISS=" ++ iss) IdType.OIDC u.userName e]
    ∧ (sync_oidc_user iss u s).err = none := by
  unfold sync_oidc_user
  rw [he]
  simp only
  rw [if_neg (by omega)]
  cases add_account_identity s ("SUB=" ++ u.id ++ ", ISS=" ++ iss) IdType.OIDC u.userName e
    <;> simp

theorem sync_x509_user_single (u : IamUser) (s : RucioState) (e d : String)
    (he : u.emails.head? = some e)
    (hc : u.indigoUser = some ⟨some [⟨some d⟩]⟩) :
    (sync_x509_user u s).trace
      = [Call.addIdentity (make_gridmap_compatible d) IdType.X509 u.userName e]
    ∧ (sync_x509_user u s).err = none := by
  unfold sync_x509_user
  rw [he, hc]
  simp only [sync_x509_cert]
  cases add_account_identity s (make_gridmap_compatible d) IdType.X509 u.userName e
    <;> simp [sync_x509_cert]

theorem sync_accounts_user_trace_head (u : IamUser) (s : RucioState) (e : String)
    (he : u.emails.head? = some e) (hlen : u.userName.length ≤ 25) :
    (sync_accounts_user u s).trace.head? = some (Call.accountExistsQ u.userName) := by
  unfold sync_accounts_user
  rw [he]
  simp only
  rw [if_neg (by omega)]
  by_cases hex : account_exists s u.userName = true
  · simp [hex]
  · simp only [hex, if_false, Bool.false_eq_true]
    cases hadd : add_account s u.userName e with
    | none => simp [hex, hadd]
    | some s1 =>
      simp only [hex, hadd, Bool.false_eq_true, if_false]
      cases hq : grantQuotas u.userName s1.rses s1 with
      | mk calls res =>
        cases res with
        | none => simp
        | some s2 =>
          cases hattr : add_account_attribute s2 u.userName "admin" "True" <;> simp [hattr]

theorem intercalate_cons_charGlue :
    ∀ (p : List Char) (ps : List (List Char)),
      List.intercalate ['/'] (p :: ps) = p ++ charGlue ps := by
  intro p ps
  induction ps generalizing p with
  | nil => simp [List.intercalate, List.intersperse, charGlue]
  | cons q ps ih =>
    have step : List.intercalate ['/'] (p :: q :: ps)
        = p ++ ['/'] ++ List.intercalate ['/'] (q :: ps) := by
      simp [List.intercalate, List.intersperse_cons_cons]
    rw [step, ih q]
    simp [charGlue]

theorem intercalate_go_mk :
    ∀ (ps : List (List Char)) (acc : String),
      String.intercalate.go acc "/" (ps.map String.mk)
        = String.mk (acc.data ++ charGlue ps) := by
  intro ps
  induction ps with
  | nil =>
    intro acc
    obtain ⟨d⟩ := acc
    simp [String.intercalate.go, charGlue]
  | cons p ps ih =>
    intro acc
    simp only [List.map_cons, String.intercalate.go]
    rw [ih]
    simp [charGlue]

theorem mk_slash_intercalate (ps : List (List Char)) :
    String.mk ('/' :: List.intercalate ['/'] ps)
      = "/" ++ String.intercalate "/" (ps.map String.mk) := by
  cases ps with
  | nil => rfl
  | cons p ps =>
    simp only [List.map_cons, String.intercalate]
    rw [intercalate_go_mk, intercalate_cons_charGlue]
    rfl

theorem make_gridmap_eq_toCanonicalKey (s : String) :
    make_gridmap_compatible s = toCanonicalKey s := by
  unfold make_gridmap_compatible toCanonicalKey
  exact mk_slash_intercalate ((splitOnComma s.toList).reverse)

theorem usersLoop_honest (total pageSize : Nat) (hP : 1 ≤ pageSize) :
    ∀ (fuel done : Nat) (acc : List Nat),
      done < total → total - done ≤ fuel * pageSize →
      usersLoop (honestServer total pageSize) pageSize fuel (done + 1) acc done
        = some (acc ++ (List.range (total - done)).map (done + ·),
                (total - done + pageSize - 1) / pageSize) := by
  intro fuel
  induction fuel with
  | zero => intro done acc h1 h2; exfalso; omega
  | succ n ih =>
    intro done acc h1 h2
    simp only [usersLoop, honestServer]
    have hlo : done + 1 - 1 = done := by omega
    rw [hlo]
    by_cases hcase : total - done ≤ pageSize
    · have hmin : min pageSize (total - done) = total - done := Nat.min_eq_right hcase
      rw [hmin]
      have hcond : ¬ (done + (total - done) < total) := by omega
      rw [if_neg hcond]
      have hdiv : (total - done + pageSize - 1) / pageSize = 1 := by
        apply Nat.div_eq_of_lt_le <;> omega
      rw [hdiv]
    · have hmin : min pageSize (total - done) = pageSize :=
        Nat.min_eq_left (by omega)
      rw [hmin]
      have hcond : done + pageSize < total := by omega
      rw [if_pos hcond]
      have hidx : done + 1 + pageSize = (done + pageSize) + 1 := by omega
      rw [hidx]
      have hmul : (n + 1) * pageSize = n * pageSize + pageSize := Nat.succ_mul n pageSize
      rw [ih (done + pageSize) (acc ++ (List.range pageSize).map (done + ·))
        (by omega) (by omega)]
      have hlist : (List.range (total - done)).map (done + ·)
          = (List.range pageSize).map (done + ·)
            ++ (List.range (total - done - pageSize)).map ((done + pageSize) + ·) := by
        have hsplit : total - done = pageSize + (total - done - pageSize) := by omega
        conv_lhs => rw [hsplit]
        rw [List.range_add, List.map_append, List.map_map]
        congr 1
        apply List.map_congr_left
        intro x _
        simp [Function.comp]
        omega
      have hcount : total - done + pageSize - 1
          = (total - (done + pageSize) + pageSize - 1) + pageSize := by omega
      rw [hcount, Nat.add_div_right _ (by omega : 0 < pageSize)]
      have hsub : total - done - pageSize = total - (done + pageSize) := by omega
      rw [hsub] at hlist
      rw [hlist]
      simp [List.append_assoc]


theorem grantQuotas_state (u : String) :
    ∀ (rs : List String) (s s2 : RucioState),
      (grantQuotas u rs s).2 = some s2 → s2 = s := by
  intro rs
  induction rs with
  | nil =>
    intro s s2 h
    simp [grantQuotas] at h
    exact h.symm
  | cons r rs ih =>
    intro s s2 h
    by_cases hf : s.failQuota.contains u = true
    · have hsl : set_local_account_limit s u r 1000000000000 = none := by
        unfold set_local_account_limit
        rw [if_pos hf]
      simp [grantQuotas, hsl] at h
    · have hsl : set_local_account_limit s u r 1000000000000 = some s := by
        unfold set_local_account_limit
        rw [if_neg hf]
      cases hg : grantQuotas u rs s with
      | mk cs res =>
        simp only [grantQuotas, hsl, hg] at h
        exact ih s s2 (by rw [hg]; simpa using h)

theorem add_account_state (s : RucioState) (u e : String) (s1 : RucioState)
    (h : add_account s u e = some s1) :
    s1 = { s with accounts := u :: s.accounts } := by
  unfold add_account at h
  split at h
  · cases h
  · cases h; rfl

theorem add_account_attribute_state (s : RucioState) (u k v : String) (s1 : RucioState)
    (h : add_account_attribute s u k v = some s1) : s1 = s := by
  unfold add_account_attribute at h
  split at h
  · cases h
  · cases h; rfl

theorem sync_accounts_user_cases (u : IamUser) (s : RucioState) :
    (u.emails.head? = none ∧
      sync_accounts_user u s = ⟨[], [], s, some PyErr.indexError⟩) ∨
    (∃ e, u.emails.head? = some e ∧ 25 < u.userName.length ∧
      sync_accounts_user u s = ⟨[], [], s, none⟩) ∨
    (∃ e, u.emails.head? = some e ∧ u.userName.length ≤ 25 ∧
      account_exists s u.userName = true ∧
      sync_accounts_user u s = ⟨[Call.accountExistsQ u.userName], [], s, none⟩) ∨
    (∃ e, u.emails.head? = some e ∧ u.userName.length ≤ 25 ∧
      account_exists s u.userName = false ∧
      add_account s u.userName e = none ∧
      sync_accounts_user u s
        = ⟨[Call.accountExistsQ u.userName, Call.addAccount u.userName e], [], s,
           some PyErr.storeError⟩) ∨
    (∃ e calls, u.emails.head? = some e ∧ u.userName.length ≤ 25 ∧
      account_exists s u.userName = false ∧
      add_account s u.userName e
        = some { s with accounts := u.userName :: s.accounts } ∧
      grantQuotas u.userName s.rses { s with accounts := u.userName :: s.accounts }
        = (calls, none) ∧
      sync_accounts_user u s
        = ⟨Call.accountExistsQ u.userName :: Call.addAccount u.userName e :: calls,
           ["Created account for User " ++ u.userName ++ " ***"],
           { s with accounts := u.userName :: s.accounts }, some PyErr.storeError⟩) ∨
    (∃ e calls, u.emails.head? = some e ∧ u.userName.length ≤ 25 ∧
      account_exists s u.userName = false ∧
      add_account s u.userName e
        = some { s with accounts := u.userName :: s.accounts } ∧
      grantQuotas u.userName s.rses { s with accounts := u.userName :: s.accounts }
        = (calls, some { s with accounts := u.userName :: s.accounts }) ∧
      sync_accounts_user u s
        = ⟨Call.accountExistsQ u.userName :: Call.addAccount u.userName e
             :: (calls ++ [Call.addAccountAttribute u.userName "admin" "True"]),
           ["Created account for User " ++ u.userName ++ " ***"],
           { s with accounts := u.userName :: s.accounts }, none⟩) := by
  unfold sync_accounts_user
  cases he : u.emails.head? with
  | none => exact Or.inl ⟨rfl, rfl⟩
  | some e =>
    simp only
    by_cases hlen : u.userName.length > 25
    · rw [if_pos hlen]
      exact Or.inr (Or.inl ⟨e, rfl, hlen, rfl⟩)
    · rw [if_neg hlen]
      by_cases hex : account_exists s u.userName = true
      · rw [if_pos hex]
        exact Or.inr (Or.inr (Or.inl ⟨e, rfl, by omega, hex, rfl⟩))
      · have hexf : account_exists s u.userName = false := Bool.eq_false_iff.mpr hex
        rw [if_neg hex]
        cases hadd : add_account s u.userName e with
        | none =>
          exact Or.inr (Or.inr (Or.inr (Or.inl ⟨e, rfl, by omega, hexf, hadd, rfl⟩)))
        | some s1 =>
          have hs1 := add_account_state s u.userName e s1 hadd
          subst hs1
          cases hq : grantQuotas u.userName
              ({ s with accounts := u.userName :: s.accounts }).rses
              { s with accounts := u.userName :: s.accounts } with
          | mk calls res =>
            cases res with
            | none =>
              exact Or.inr (Or.inr (Or.inr (Or.inr (Or.inl
                ⟨e, calls, rfl, by omega, hexf, hadd, rfl, by simp [hq]⟩))))
            | some s2 =>
              have hs2 : s2 = { s with accounts := u.userName :: s.accounts } :=
                grantQuotas_state u.userName _ _ s2 (by rw [hq])
              subst hs2
              cases hattr : add_account_attribute
                  { s with accounts := u.userName :: s.accounts }
                  u.userName "admin" "True" with
              | none =>
                exact Or.inr (Or.inr (Or.inr (Or.inr (Or.inr
                  ⟨e, calls, rfl, by omega, hexf, hadd, rfl, by simp [hq, hattr]⟩))))
              | some s3 =>
                have hs3 : s3 = { s with accounts := u.userName :: s.accounts } :=
                  add_account_attribute_state _ u.userName "admin" "True" s3 hattr
                subst hs3
                exact Or.inr (Or.inr (Or.inr (Or.inr (Or.inr
                  ⟨e, calls, rfl, by omega, hexf, hadd, rfl, by simp [hq, hattr]⟩))))

theorem sync_accounts_user_err_email (u : IamUser) (s : RucioState)
    (herr : (sync_accounts_user u s).err = none) : u.emails ≠ [] := by
  intro hnil
  rw [sync_accounts_user_empty_email u s hnil] at herr
  cases herr

theorem sync_accounts_user_provisioned (u : IamUser) (s : RucioState)
    (herr : (sync_accounts_user u s).err = none) (hlen : u.userName.length ≤ 25) :
    u.userName ∈ (sync_accounts_user u s).state.accounts := by
  rcases sync_accounts_user_cases u s with
    ⟨_, hr⟩ | ⟨e, _, hl, hr⟩ | ⟨e, _, _, hex, hr⟩ | ⟨e, _, _, _, _, hr⟩ |
    ⟨e, calls, _, _, _, _, _, hr⟩ | ⟨e, calls, _, _, _, _, _, hr⟩
  · rw [hr] at herr; cases herr
  · omega
  · rw [hr]
    unfold account_exists at hex
    exact List.elem_iff.mp hex
  · rw [hr] at herr; cases herr
  · rw [hr] at herr; cases herr
  · rw [hr]
    exact List.mem_cons_self _ _

theorem sync_accounts_user_state (u : IamUser) (s : RucioState) :
    (sync_accounts_user u s).state = s ∨
    (sync_accounts_user u s).state = { s with accounts := u.userName :: s.accounts } := by
  rcases sync_accounts_user_cases u s with
    ⟨_, hr⟩ | ⟨e, _, _, hr⟩ | ⟨e, _, _, _, hr⟩ | ⟨e, _, _, _, _, hr⟩ |
    ⟨e, calls, _, _, _, _, _, hr⟩ | ⟨e, calls, _, _, _, _, _, hr⟩ <;> rw [hr]
  · left; rfl
  · left; rfl
  · left; rfl
  · left; rfl
  · right; rfl
  · right; rfl

theorem sync_accounts_user_mem (u : IamUser) (s : RucioState) (a : String)
    (h : a ∈ s.accounts) : a ∈ (sync_accounts_user u s).state.accounts := by
  rcases sync_accounts_user_state u s with hs | hs <;> rw [hs]
  · exact h
  · exact List.mem_cons_of_mem _ h

theorem sync_accounts_mem (us : List IamUser) : ∀ (s : RucioState) (a : String),
    a ∈ s.accounts → a ∈ (sync_accounts us s).state.accounts := by
  induction us with
  | nil => intro s a h; exact h
  | cons u us ih =>
    intro s a h
    cases herr : (sync_accounts_user u s).err with
    | some e =>
      have hst : (sync_accounts (u :: us) s).state = (sync_accounts_user u s).state := by
        simp [sync_accounts, runPass, herr]
      rw [hst]
      exact sync_accounts_user_mem u s a h
    | none =>
      have hst : (sync_accounts (u :: us) s).state
          = (sync_accounts us (sync_accounts_user u s).state).state := by
        simp [sync_accounts, runPass, herr]
      rw [hst]
      exact ih _ a (sync_accounts_user_mem u s a h)

theorem sync_accounts_cons_err (u : IamUser) (us : List IamUser) (s : RucioState)
    (h : (sync_accounts (u :: us) s).err = none) :
    (sync_accounts_user u s).err = none
    ∧ (sync_accounts us (sync_accounts_user u s).state).err = none := by
  cases herr : (sync_accounts_user u s).err with
  | some e => simp [sync_accounts, runPass, herr] at h
  | none =>
    refine ⟨rfl, ?_⟩
    simpa [sync_accounts, runPass, herr] using h

theorem sync_accounts_ok_all (us : List IamUser) : ∀ (s : RucioState),
    (sync_accounts us s).err = none →
    ∀ u ∈ us, u.emails ≠ [] ∧
      (u.userName.length ≤ 25 → u.userName ∈ (sync_accounts us s).state.accounts) := by
  induction us with
  | nil => intro s _ u hu; cases hu
  | cons v us ih =>
    intro s h u hu
    obtain ⟨h1, h2⟩ := sync_accounts_cons_err v us s h
    have hstate : (sync_accounts (v :: us) s).state
        = (sync_accounts us (sync_accounts_user v s).state).state := by
      simp [sync_accounts, runPass, h1]
    cases hu with
    | head =>
      refine ⟨sync_accounts_user_err_email v s h1, fun hlen => ?_⟩
      rw [hstate]
      exact sync_accounts_mem us _ _ (sync_accounts_user_provisioned v s h1 hlen)
    | tail _ hu2 =>
      have hrec := ih (sync_accounts_user v s).state h2 u hu2
      refine ⟨hrec.1, fun hlen => ?_⟩
      rw [hstate]
      exact hrec.2 hlen

theorem sync_accounts_user_exists_probe (u : IamUser) (s : RucioState)
    (hne : u.emails ≠ []) (hlen : u.userName.length ≤ 25)
    (hmem : u.userName ∈ s.accounts) :
    sync_accounts_user u s = ⟨[Call.accountExistsQ u.userName], [], s, none⟩ := by
  have hex : account_exists s u.userName = true := List.elem_iff.mpr hmem
  rcases sync_accounts_user_cases u s with
    ⟨hn, _⟩ | ⟨e, _, hl, _⟩ | ⟨e, _, _, _, hr⟩ | ⟨e, _, _, hexf, _, _⟩ |
    ⟨e, calls, _, _, hexf, _, _, _⟩ | ⟨e, calls, _, _, hexf, _, _, _⟩
  · cases hu : u.emails with
    | nil => exact (hne hu).elim
    | cons a l => rw [hu] at hn; cases hn
  · omega
  · exact hr
  · rw [hex] at hexf; cases hexf
  · rw [hex] at hexf; cases hexf
  · rw [hex] at hexf; cases hexf

theorem sync_accounts_second_run (us : List IamUser) : ∀ (s : RucioState),
    (∀ u ∈ us, u.emails ≠ []) →
    (∀ u ∈ us, u.userName.length ≤ 25 → u.userName ∈ s.accounts) →
    (sync_accounts us s).trace.all isProbe = true := by
  induction us with
  | nil => intro s _ _; rfl
  | cons u us ih =>
    intro s hne hmem
    have hne0 := hne u (List.mem_cons_self u us)
    obtain ⟨e0, l0, hu0⟩ : ∃ e0 l0, u.emails = e0 :: l0 := by
      cases hu : u.emails with
      | nil => exact (hne0 hu).elim
      | cons e0 l0 => exact ⟨e0, l0, rfl⟩
    by_cases hlen : u.userName.length > 25
    · have hstep : sync_accounts_user u s = ⟨[], [], s, none⟩ :=
        sync_accounts_user_skip u s e0 (by rw [hu0]; rfl) hlen
      have hrun : sync_accounts (u :: us) s
          = ⟨[] ++ (sync_accounts us s).trace, [] ++ (sync_accounts us s).log,
             (sync_accounts us s).state, (sync_accounts us s).err⟩ := by
        rw [show sync_accounts (u :: us) s = runPass sync_accounts_user (u :: us) s from rfl,
          runPass_cons_ok _ _ _ _ (by rw [hstep])]
        rw [hstep]
        rfl
      rw [hrun]
      simp only [List.nil_append]
      exact ih s (fun v hv => hne v (List.mem_cons_of_mem u hv))
        (fun v hv => hmem v (List.mem_cons_of_mem u hv))
    · have hstep : sync_accounts_user u s = ⟨[Call.accountExistsQ u.userName], [], s, none⟩ :=
        sync_accounts_user_exists_probe u s hne0 (by omega)
          (hmem u (List.mem_cons_self u us) (by omega))
      have hrun : sync_accounts (u :: us) s
          = ⟨[Call.accountExistsQ u.userName] ++ (sync_accounts us s).trace,
             [] ++ (sync_accounts us s).log,
             (sync_accounts us s).state, (sync_accounts us s).err⟩ := by
        rw [show sync_accounts (u :: us) s = runPass sync_accounts_user (u :: us) s from rfl,
          runPass_cons_ok _ _ _ _ (by rw [hstep])]
        rw [hstep]
        rfl
      rw [hrun]
      simp only [List.cons_append, List.nil_append, List.all_cons, Bool.and_eq_true]
      refine And.intro rfl ?_
      exact ih s (fun v hv => hne v (List.mem_cons_of_mem u hv))
        (fun v hv => hmem v (List.mem_cons_of_mem u hv))

theorem sync_accounts_append (us vs : List IamUser) (s : RucioState)
    (h : (sync_accounts us s).err = none) :
    sync_accounts (us ++ vs) s
      = ⟨(sync_accounts us s).trace ++ (sync_accounts vs (sync_accounts us s).state).trace,
         (sync_accounts us s).log ++ (sync_accounts vs (sync_accounts us s).state).log,
         (sync_accounts vs (sync_accounts us s).state).state,
         (sync_accounts vs (sync_accounts us s).state).err⟩ :=
  runPass_append sync_accounts_user us vs s h

theorem sync_accounts_cons_fail (u : IamUser) (us : List IamUser) (s : RucioState)
    (e : PyErr) (h : (sync_accounts_user u s).err = some e) :
    sync_accounts (u :: us) s
      = ⟨(sync_accounts_user u s).trace, (sync_accounts_user u s).log,
         (sync_accounts_user u s).state, some e⟩ :=
  runPass_cons_err sync_accounts_user u us s e h

theorem sync_accounts_user_create_fail (u : IamUser) (s : RucioState) (e : String)
    (he : u.emails.head? = some e) (hlen : u.userName.length ≤ 25)
    (hex : account_exists s u.userName = false)
    (hadd : add_account s u.userName e = none) :
    sync_accounts_user u s
      = ⟨[Call.accountExistsQ u.userName, Call.addAccount u.userName e], [],
         s, some PyErr.storeError⟩ := by
  rcases sync_accounts_user_cases u s with
    ⟨hn, _⟩ | ⟨e2, he2, hl, _⟩ | ⟨e2, he2, _, hex2, _⟩ | ⟨e2, he2, _, _, _, hr⟩ |
    ⟨e2, calls, he2, _, _, hadd2, _, _⟩ | ⟨e2, calls, he2, _, _, hadd2, _, _⟩
  · rw [he] at hn; cases hn
  · rw [he] at he2; injection he2 with hee; omega
  · rw [hex2] at hex; cases hex
  · rw [he] at he2; injection he2 with hee; subst hee; exact hr
  · rw [he] at he2; injection he2 with hee; subst hee; rw [hadd] at hadd2; cases hadd2
  · rw [he] at he2; injection he2 with hee; subst hee; rw [hadd] at hadd2; cases hadd2

theorem sync_oidc_append (iss : String) (us vs : List IamUser) (s : RucioState)
    (h : (sync_oidc iss us s).err = none) :
    sync_oidc iss (us ++ vs) s
      = ⟨(sync_oidc iss us s).trace
           ++ (sync_oidc iss vs (sync_oidc iss us s).state).trace,
         (sync_oidc iss us s).log
           ++ (sync_oidc iss vs (sync_oidc iss us s).state).log,
         (sync_oidc iss vs (sync_oidc iss us s).state).state,
         (sync_oidc iss vs (sync_oidc iss us s).state).err⟩ :=
  runPass_append (sync_oidc_user iss) us vs s h

theorem sync_oidc_cons_ok (iss : String) (u : IamUser) (us : List IamUser)
    (s : RucioState) (h : (sync_oidc_user iss u s).err = none) :
    sync_oidc iss (u :: us) s
      = ⟨(sync_oidc_user iss u s).trace
           ++ (sync_oidc iss us (sync_oidc_user iss u s).state).trace,
         (sync_oidc_user iss u s).log
           ++ (sync_oidc iss us (sync_oidc_user iss u s).state).log,
         (sync_oidc iss us (sync_oidc_user iss u s).state).state,
         (sync_oidc iss us (sync_oidc_user iss u s).state).err⟩ :=
  runPass_cons_ok (sync_oidc_user iss) u us s h

theorem sync_oidc_user_fail (iss : String) (u : IamUser) (s : RucioState) (e : String)
    (he : u.emails.head? = some e) (hlen : u.userName.length ≤ 25)
    (hf : add_account_identity s ("SUB=" ++ u.id ++ ", ISS=" ++ iss)
        IdType.OIDC u.userName e = none) :
    sync_oidc_user iss u s
      = ⟨[Call.addIdentity ("SUB=" ++ u.id ++ ", ISS=" ++ iss) IdType.OIDC u.userName e],
         [], s, none⟩ := by
  unfold sync_oidc_user
  rw [he]
  simp only
  rw [if_neg (by omega)]
  rw [hf]

theorem sync_x509_user_cert_fail (u : IamUser) (s : RucioState) (e d1 : String)
    (rest : List Certificate)
    (he : u.emails.head? = some e)
    (hc : u.indigoUser = some ⟨some (⟨some d1⟩ :: rest)⟩)
    (hf : add_account_identity s (make_gridmap_compatible d1)
        IdType.X509 u.userName e = none) :
    (sync_x509_user u s).trace
      = Call.addIdentity (make_gridmap_compatible d1) IdType.X509 u.userName e
          :: (sync_x509_cert u.userName e rest s).1
    ∧ (sync_x509_user u s).err = none := by
  unfold sync_x509_user
  rw [he, hc]
  simp only [sync_x509_cert]
  rw [hf]
  cases hrec : sync_x509_cert u.userName e rest s with
  | mk t q => simp [hrec]

theorem createProbed_probe_create (u v e : String) (l : List Call) :
    createProbed (Call.accountExistsQ u :: Call.addAccount v e :: l)
      = ((v == u) && createProbed l) := rfl

theorem createProbed_cons_other (c : Call) (l : List Call)
    (h1 : isCreate c = false) (h2 : isProbe c = false) :
    createProbed (c :: l) = createProbed l := by
  cases c with
  | accountExistsQ u => simp [isProbe] at h2
  | addAccount u e => simp [isCreate] at h1
  | setLocalAccountLimit u r n => rfl
  | addAccountAttribute u k v => rfl
  | addIdentity key t u e => rfl

theorem headNotCreate_cons (c : Call) (l : List Call) :
    headNotCreate (c :: l) = !(isCreate c) := by
  cases c <;> rfl

theorem createProbed_probe_cons (u : String) (l : List Call)
    (h : headNotCreate l = true) :
    createProbed (Call.accountExistsQ u :: l) = createProbed l := by
  cases l with
  | nil => rfl
  | cons c l2 =>
    cases c with
    | accountExistsQ v => rfl
    | addAccount v e => simp [headNotCreate] at h
    | setLocalAccountLimit v r n => rfl
    | addAccountAttribute v k w => rfl
    | addIdentity key t v e => rfl

theorem createProbed_quota_append (u : String) :
    ∀ (rs : List String) (s : RucioState) (l : List Call),
      createProbed ((grantQuotas u rs s).1 ++ l) = createProbed l := by
  intro rs
  induction rs with
  | nil => intro s l; simp [grantQuotas]
  | cons r rs ih =>
    intro s l
    by_cases hf : s.failQuota.contains u = true
    · have hsl : set_local_account_limit s u r 1000000000000 = none := by
        unfold set_local_account_limit
        rw [if_pos hf]
      simp only [grantQuotas, hsl]
      rw [List.cons_append]
      rw [createProbed_cons_other (Call.setLocalAccountLimit u r 1000000000000) _ rfl rfl]
      simp
    · have hsl : set_local_account_limit s u r 1000000000000 = some s := by
        unfold set_local_account_limit
        rw [if_neg hf]
      cases hg : grantQuotas u rs s with
      | mk cs res =>
        simp only [grantQuotas, hsl, hg]
        rw [List.cons_append]
        rw [createProbed_cons_other (Call.setLocalAccountLimit u r 1000000000000) _ rfl rfl]
        have := ih s l
        rw [hg] at this
        exact this

theorem sync_accounts_user_createProbed_append (u : IamUser) (s : RucioState)
    (l : List Call) (hl : createProbed l = true) (hh : headNotCreate l = true) :
    createProbed ((sync_accounts_user u s).trace ++ l) = true := by
  rcases sync_accounts_user_cases u s with
    ⟨_, hr⟩ | ⟨e, _, _, hr⟩ | ⟨e, _, _, _, hr⟩ | ⟨e, _, _, _, _, hr⟩ |
    ⟨e, calls, _, _, _, _, hq, hr⟩ | ⟨e, calls, _, _, _, _, hq, hr⟩ <;> rw [hr]
  · simpa using hl
  · simpa using hl
  · show createProbed ([Call.accountExistsQ u.userName] ++ l) = true
    rw [List.singleton_append, createProbed_probe_cons _ _ hh]
    exact hl
  · show createProbed
        (Call.accountExistsQ u.userName :: Call.addAccount u.userName e :: l) = true
    rw [createProbed_probe_create]
    simp [hl]
  · show createProbed (Call.accountExistsQ u.userName :: Call.addAccount u.userName e
        :: (calls ++ l)) = true
    rw [createProbed_probe_create]
    have hc : calls = (grantQuotas u.userName s.rses
        { s with accounts := u.userName :: s.accounts }).1 := by rw [hq]
    rw [hc, createProbed_quota_append]
    simp [hl]
  · show createProbed (Call.accountExistsQ u.userName :: Call.addAccount u.userName e
        :: ((calls ++ [Call.addAccountAttribute u.userName "admin" "True"]) ++ l)) = true
    rw [createProbed_probe_create, List.append_assoc, List.singleton_append]
    have hc : calls = (grantQuotas u.userName s.rses
        { s with accounts := u.userName :: s.accounts }).1 := by rw [hq]
    rw [hc, createProbed_quota_append]
    rw [createProbed_cons_other
      (Call.addAccountAttribute u.userName "admin" "True") _ rfl rfl]
    simp [hl]

theorem sync_accounts_user_headNotCreate (u : IamUser) (s : RucioState) :
    headNotCreate (sync_accounts_user u s).trace = true := by
  rcases sync_accounts_user_cases u s with
    ⟨_, hr⟩ | ⟨e, _, _, hr⟩ | ⟨e, _, _, _, hr⟩ | ⟨e, _, _, _, _, hr⟩ |
    ⟨e, calls, _, _, _, _, _, hr⟩ | ⟨e, calls, _, _, _, _, _, hr⟩ <;> rw [hr] <;> rfl

theorem sync_accounts_headNotCreate (us : List IamUser) :
    ∀ (s : RucioState), headNotCreate (sync_accounts us s).trace = true := by
  induction us with
  | nil => intro s; rfl
  | cons u us ih =>
    intro s
    cases herr : (sync_accounts_user u s).err with
    | some e =>
      rw [sync_accounts_cons_fail u us s e herr]
      exact sync_accounts_user_headNotCreate u s
    | none =>
      rw [show sync_accounts (u :: us) s = runPass sync_accounts_user (u :: us) s from rfl,
        runPass_cons_ok _ _ _ _ herr]
      cases ht : (sync_accounts_user u s).trace with
      | nil =>
        have := ih (sync_accounts_user u s).state
        simpa [ht] using this
      | cons c t =>
        have h1 := sync_accounts_user_headNotCreate u s
        rw [ht, headNotCreate_cons] at h1
        simp only [ht, List.cons_append, headNotCreate_cons]
        exact h1

theorem sync_accounts_createProbed (us : List IamUser) :
    ∀ (s : RucioState), createProbed (sync_accounts us s).trace = true := by
  induction us with
  | nil => intro s; rfl
  | cons u us ih =>
    intro s
    cases herr : (sync_accounts_user u s).err with
    | some e =>
      rw [sync_accounts_cons_fail u us s e herr]
      have := sync_accounts_user_createProbed_append u s [] rfl rfl
      simpa using this
    | none =>
      rw [show sync_accounts (u :: us) s = runPass sync_accounts_user (u :: us) s from rfl,
        runPass_cons_ok _ _ _ _ herr]
      exact sync_accounts_user_createProbed_append u s _
        (ih (sync_accounts_user u s).state)
        (sync_accounts_headNotCreate us (sync_accounts_user u s).state)

theorem probeFree_append (a b : List Call) :
    probeFree (a ++ b) = (probeFree a && probeFree b) := by
  simp [probeFree, List.all_append]

theorem sync_oidc_user_probeFree (iss : String) (u : IamUser) (s : RucioState) :
    probeFree (sync_oidc_user iss u s).trace = true := by
  unfold sync_oidc_user
  cases he : u.emails.head? with
  | none => rfl
  | some e =>
    simp only
    by_cases hlen : u.userName.length > 25
    · rw [if_pos hlen]; rfl
    · rw [if_neg hlen]
      cases add_account_identity s ("SUB=" ++ u.id ++ ", ISS=" ++ iss)
          IdType.OIDC u.userName e <;> rfl

theorem sync_x509_cert_probeFree (username email : String) :
    ∀ (certs : List Certificate) (s : RucioState),
      probeFree (sync_x509_cert username email certs s).1 = true := by
  intro certs
  induction certs with
  | nil => intro s; rfl
  | cons c cs ih =>
    intro s
    cases c with
    | mk osubj =>
      cases osubj with
      | none =>
        show probeFree (sync_x509_cert username email cs s).1 = true
        exact ih s
      | some dn =>
        unfold sync_x509_cert
        simp only
        cases hl : add_account_identity s (make_gridmap_compatible dn)
            IdType.X509 username email with
        | none =>
          simp only [probeFree, List.all_cons]
          have iht := ih s
          simp only [probeFree] at iht
          rw [iht]
          rfl
        | some s1 =>
          simp only [probeFree, List.all_cons]
          have iht := ih s1
          simp only [probeFree] at iht
          rw [iht]
          rfl

theorem sync_x509_user_probeFree (u : IamUser) (s : RucioState) :
    probeFree (sync_x509_user u s).trace = true := by
  unfold sync_x509_user
  cases he : u.emails.head? with
  | none => rfl
  | some e =>
    simp only
    cases hi : u.indigoUser with
    | none => rfl
    | some ind =>
      simp only
      cases hc : ind.certificates with
      | none => rfl
      | some certs =>
        simp only
        exact sync_x509_cert_probeFree u.userName e certs s

theorem runPass_probeFree (f : IamUser → RucioState → PassResult)
    (hf : ∀ (u : IamUser) (s : RucioState), probeFree (f u s).trace = true) :
    ∀ (us : List IamUser) (s : RucioState), probeFree (runPass f us s).trace = true := by
  intro us
  induction us with
  | nil => intro s; rfl
  | cons u us ih =>
    intro s
    cases herr : (f u s).err with
    | some e =>
      rw [runPass_cons_err f u us s e herr]
      exact hf u s
    | none =>
      rw [runPass_cons_ok f u us s herr]
      show probeFree ((f u s).trace ++ (runPass f us (f u s).state).trace) = true
      rw [probeFree_append, hf u s, ih (f u s).state]
      rfl

/-! ### Claim theorems -/

/-- C2: for every input string, `make_gridmap_compatible` equals the
spec's transform — split on `','`, reverse, join with `'/'`, prepend a
leading `'/'` — and it maps the two spec examples as stated; being a
Lean function over all of `String`, it is total with no failure path. -/
theorem C2_dn_transform :
    (∀ s : String, make_gridmap_compatible s = toCanonicalKey s) ∧
    make_gridmap_compatible "CN=Alice,OU=Org,O=Example" = "/O=Example/OU=Org/CN=Alice" ∧
    make_gridmap_compatible "CN=Bob" = "/CN=Bob" :=
  ⟨make_gridmap_eq_toCanonicalKey, by decide, by decide⟩

/-- C4: with a server that reports `totalResults = 1` but returns empty
pages (`itemsPerPage = 0`), the fetch loop of `get_list_of_users` never
exits, for every fuel bound, from any start index and accumulator: the
code requests pages indefinitely and never fails with a
`ProtocolError` (no such failure path exists in the loop). -/
theorem C4_inconsistent_total_diverges :
    ∀ (fuel startIndex : Nat) (acc : List Nat),
      usersLoop inconsistentServer 100 fuel startIndex acc 0 = none := by
  intro fuel
  induction fuel with
  | zero => intro si acc; rfl
  | succ n ih => intro si acc; simp [usersLoop, inconsistentServer, ih]

/-- C3 counterexample: for total result count 0 and page size 100, the
fetch loop performs one page request, not `ceil(0/100) = 0` requests. -/
theorem C3_counterexample :
    get_list_of_users 0 100 = some ([], 1) ∧
      (get_list_of_users 0 100).map Prod.snd ≠ some ((0 + 100 - 1) / 100) := by
  decide

/-- C3 amended: for any total result count `T ≥ 1` and page size
`P ≥ 1`, the fetch loop against a consistent directory performs exactly
`ceil(T/P)` page requests and returns exactly the `T` directory
records, terminating even when the last page is partial; for `T = 0`
the loop still performs one page request (see the counterexample). -/
theorem C3_amended_pagination (total pageSize : Nat)
    (hT : 1 ≤ total) (hP : 1 ≤ pageSize) :
    get_list_of_users total pageSize
      = some (List.range total, (total + pageSize - 1) / pageSize) := by
  have hmul : (total + 1) ≤ (total + 1) * pageSize :=
    Nat.le_mul_of_pos_right _ (by omega)
  have h := usersLoop_honest total pageSize hP (total + 1) 0 [] (by omega) (by omega)
  simp only [Nat.sub_zero, Nat.zero_add, List.nil_append] at h
  unfold get_list_of_users
  rw [h]
  simp

/-- C3 witness: a directory of 5 users at page size 2 is fetched in
`ceil(5/2) = 3` requests, returning all 5 records. -/
theorem C3_amended_pagination_witness :
    1 ≤ 5 ∧ 1 ≤ 2 ∧
    get_list_of_users 5 2 = some (List.range 5, (5 + 2 - 1) / 2) :=
  ⟨by decide, by decide, C3_amended_pagination 5 2 (by decide) (by decide)⟩

/-- C1 counterexample: a user whose 26-character username exceeds the
length bound is still processed by the X509 pass — an X509 identity
link for their certificate is submitted to the store. -/
theorem C1_counterexample :
    ("abcdefghijklmnopqrstuvwxyz" : String).length = 26 ∧
    (sync_x509 [⟨"abcdefghijklmnopqrstuvwxyz", ["l@x"], "sub-l",
        some ⟨some [⟨some "CN=X"⟩]⟩⟩]
       ⟨[], [], [], [], [], [], []⟩).trace
      = [Call.addIdentity "/CN=X" IdType.X509 "abcdefghijklmnopqrstuvwxyz" "l@x"] := by
  decide

/-- C1 amended: a user whose username exceeds 25 characters is skipped
by the account pass and the OIDC pass, but the X509 pass carries no
length check and still submits an identity-link call for the user's
certificate; a username of exactly 25 characters is processed by all
three passes (the account pass probes for the account, the OIDC and
X509 passes submit their link calls). -/
theorem C1_amended_length_filter (u : IamUser) (s : RucioState) (iss e d : String)
    (he : u.emails.head? = some e)
    (hc : u.indigoUser = some ⟨some [⟨some d⟩]⟩) :
    (u.userName.length > 25 →
      sync_accounts [u] s = ⟨[], [], s, none⟩ ∧
      sync_oidc iss [u] s = ⟨[], [], s, none⟩ ∧
      (sync_x509 [u] s).trace
        = [Call.addIdentity (make_gridmap_compatible d) IdType.X509 u.userName e]) ∧
    (u.userName.length = 25 →
      (sync_accounts [u] s).trace.head? = some (Call.accountExistsQ u.userName) ∧
      (sync_oidc iss [u] s).trace
        = [Call.addIdentity ("SUB=" ++ u.id ++ ", ISS=" ++ iss) IdType.OIDC u.userName e] ∧
      (sync_x509 [u] s).trace
        = [Call.addIdentity (make_gridmap_compatible d) IdType.X509 u.userName e]) := by
  simp only [sync_accounts, sync_oidc, sync_x509, runPass_single]
  constructor
  · intro hlen
    rw [sync_accounts_user_skip u s e he hlen, sync_oidc_user_skip iss u s e he hlen,
      (sync_x509_user_single u s e d he hc).1]
    simp
  · intro hlen
    rw [sync_accounts_user_trace_head u s e he (by omega),
      (sync_oidc_user_ok iss u s e he (by omega)).1,
      (sync_x509_user_single u s e d he hc).1]
    simp

/-- C1 witness: the amended statement applied to a concrete 26-character
username. -/
theorem C1_amended_length_filter_witness :
    u26.emails.head? = some "l@x" ∧
    u26.indigoUser = some ⟨some [⟨some "CN=X"⟩]⟩ ∧
    ((u26.userName.length > 25 →
      sync_accounts [u26] emptyStore = ⟨[], [], emptyStore, none⟩ ∧
      sync_oidc "I" [u26] emptyStore = ⟨[], [], emptyStore, none⟩ ∧
      (sync_x509 [u26] emptyStore).trace
        = [Call.addIdentity (make_gridmap_compatible "CN=X") IdType.X509 u26.userName "l@x"]) ∧
     (u26.userName.length = 25 →
      (sync_accounts [u26] emptyStore).trace.head? = some (Call.accountExistsQ u26.userName) ∧
      (sync_oidc "I" [u26] emptyStore).trace
        = [Call.addIdentity ("SUB=" ++ u26.id ++ ", ISS=" ++ "I") IdType.OIDC u26.userName "l@x"] ∧
      (sync_x509 [u26] emptyStore).trace
        = [Call.addIdentity (make_gridmap_compatible "CN=X") IdType.X509 u26.userName "l@x"])) :=
  ⟨rfl, rfl, C1_amended_length_filter u26 emptyStore "I" "l@x" "CN=X" rfl rfl⟩

/-- C5 counterexample: the OIDC pass submits its identity-link call
with no existence probe of any kind — the complete call trace of a
concrete run is a single `addIdentity` call and is probe-free. -/
theorem C5_counterexample :
    (sync_oidc "https://iam.example" [⟨"alice", ["a@x"], "sub-a", none⟩]
        ⟨["alice"], [], [], [], [], [], []⟩).trace
      = [Call.addIdentity "SUB=sub-a, ISS=https://iam.example" IdType.OIDC "alice" "a@x"] ∧
    probeFree (sync_oidc "https://iam.example" [⟨"alice", ["a@x"], "sub-a", none⟩]
        ⟨["alice"], [], [], [], [], [], []⟩).trace = true := by
  decide

/-- C7 counterexample: when account creation for the first user fails,
the account pass raises (`storeError` escapes), records nothing in any
report (the log is empty), and never reaches the second user (no call
for them is submitted). -/
theorem C7_counterexample :
    sync_accounts [⟨"carol", ["c@x"], "sub-c", none⟩, ⟨"dave", ["d@x"], "sub-d", none⟩]
        ⟨[], [], ["RSE1"], ["carol"], [], [], []⟩
      = ⟨[Call.accountExistsQ "carol", Call.addAccount "carol" "c@x"], [],
         ⟨[], [], ["RSE1"], ["carol"], [], [], []⟩, some PyErr.storeError⟩ := by
  decide

/-- C8 counterexample: in a concrete OIDC run where the link for the
first user fails ("already linked") and the second user succeeds, the
pass completes, and its entire observable outcome — emitted log and
final store state — equals that of a run over the second user alone:
no output of the pass records the failed user, so no failure count
includes them. -/
theorem C8_counterexample :
    (sync_oidc "I" [⟨"erin", ["e@x"], "se", none⟩, ⟨"frank", ["f@x"], "sf", none⟩]
        ⟨["erin", "frank"], [("SUB=se, ISS=I", IdType.OIDC)], [], [], [], [], []⟩).err
      = none ∧
    (sync_oidc "I" [⟨"erin", ["e@x"], "se", none⟩, ⟨"frank", ["f@x"], "sf", none⟩]
        ⟨["erin", "frank"], [("SUB=se, ISS=I", IdType.OIDC)], [], [], [], [], []⟩).log
      = (sync_oidc "I" [⟨"frank", ["f@x"], "sf", none⟩]
          ⟨["erin", "frank"], [("SUB=se, ISS=I", IdType.OIDC)], [], [], [], [], []⟩).log ∧
    (sync_oidc "I" [⟨"erin", ["e@x"], "se", none⟩, ⟨"frank", ["f@x"], "sf", none⟩]
        ⟨["erin", "frank"], [("SUB=se, ISS=I", IdType.OIDC)], [], [], [], [], []⟩).state
      = (sync_oidc "I" [⟨"frank", ["f@x"], "sf", none⟩]
          ⟨["erin", "frank"], [("SUB=se, ISS=I", IdType.OIDC)], [], [], [], [], []⟩).state := by
  decide

/-- C9: in each of the three passes, the first email entry is read
unconditionally before any skip or exception handler, so a user record
with an empty email list makes the pass raise (`indexError`) on
reaching it: the pass output is exactly the output of processing the
preceding users, the exception escapes, and the remaining users are
not processed. -/
theorem C9_empty_email_aborts (iss : String) (us vs : List IamUser) (bad : IamUser)
    (s : RucioState) (hb : bad.emails = [])
    (h1 : (sync_accounts us s).err = none)
    (h2 : (sync_oidc iss us s).err = none)
    (h3 : (sync_x509 us s).err = none) :
    sync_accounts (us ++ bad :: vs) s
      = ⟨(sync_accounts us s).trace, (sync_accounts us s).log,
         (sync_accounts us s).state, some PyErr.indexError⟩ ∧
    sync_oidc iss (us ++ bad :: vs) s
      = ⟨(sync_oidc iss us s).trace, (sync_oidc iss us s).log,
         (sync_oidc iss us s).state, some PyErr.indexError⟩ ∧
    sync_x509 (us ++ bad :: vs) s
      = ⟨(sync_x509 us s).trace, (sync_x509 us s).log,
         (sync_x509 us s).state, some PyErr.indexError⟩ := by
  have key : ∀ (f : IamUser → RucioState → PassResult),
      (∀ s2, f bad s2 = ⟨[], [], s2, some PyErr.indexError⟩) →
      (runPass f us s).err = none →
      runPass f (us ++ bad :: vs) s
        = ⟨(runPass f us s).trace, (runPass f us s).log,
           (runPass f us s).state, some PyErr.indexError⟩ := by
    intro f hf herr
    rw [runPass_append f us (bad :: vs) s herr]
    rw [runPass_cons_fail f bad vs _ PyErr.indexError (hf _)]
    simp
  exact ⟨key sync_accounts_user (fun s2 => sync_accounts_user_empty_email bad s2 hb) h1,
         key (sync_oidc_user iss) (fun s2 => sync_oidc_user_empty_email iss bad s2 hb) h2,
         key sync_x509_user (fun s2 => sync_x509_user_empty_email bad s2 hb) h3⟩

/-- C9 witness: a concrete run of all three passes over a good user, a
user with an empty email list, and a trailing user. -/
theorem C9_empty_email_aborts_witness :
    (⟨"bea", [], "sub-b", none⟩ : IamUser).emails = [] ∧
    (sync_accounts [⟨"alice", ["a@x"], "sub-a", none⟩]
        ⟨[], [], ["RSE1"], [], [], [], []⟩).err = none ∧
    (sync_oidc "I" [⟨"alice", ["a@x"], "sub-a", none⟩]
        ⟨[], [], ["RSE1"], [], [], [], []⟩).err = none ∧
    (sync_x509 [⟨"alice", ["a@x"], "sub-a", none⟩]
        ⟨[], [], ["RSE1"], [], [], [], []⟩).err = none ∧
    (sync_accounts
        [⟨"alice", ["a@x"], "sub-a", none⟩, ⟨"bea", [], "sub-b", none⟩,
         ⟨"carl", ["c@x"], "sub-c", none⟩]
        ⟨[], [], ["RSE1"], [], [], [], []⟩
      = ⟨(sync_accounts [⟨"alice", ["a@x"], "sub-a", none⟩]
            ⟨[], [], ["RSE1"], [], [], [], []⟩).trace,
         (sync_accounts [⟨"alice", ["a@x"], "sub-a", none⟩]
            ⟨[], [], ["RSE1"], [], [], [], []⟩).log,
         (sync_accounts [⟨"alice", ["a@x"], "sub-a", none⟩]
            ⟨[], [], ["RSE1"], [], [], [], []⟩).state, some PyErr.indexError⟩ ∧
     sync_oidc "I"
        [⟨"alice", ["a@x"], "sub-a", none⟩, ⟨"bea", [], "sub-b", none⟩,
         ⟨"carl", ["c@x"], "sub-c", none⟩]
        ⟨[], [], ["RSE1"], [], [], [], []⟩
      = ⟨(sync_oidc "I" [⟨"alice", ["a@x"], "sub-a", none⟩]
            ⟨[], [], ["RSE1"], [], [], [], []⟩).trace,
         (sync_oidc "I" [⟨"alice", ["a@x"], "sub-a", none⟩]
            ⟨[], [], ["RSE1"], [], [], [], []⟩).log,
         (sync_oidc "I" [⟨"alice", ["a@x"], "sub-a", none⟩]
            ⟨[], [], ["RSE1"], [], [], [], []⟩).state, some PyErr.indexError⟩ ∧
     sync_x509
        [⟨"alice", ["a@x"], "sub-a", none⟩, ⟨"bea", [], "sub-b", none⟩,
         ⟨"carl", ["c@x"], "sub-c", none⟩]
        ⟨[], [], ["RSE1"], [], [], [], []⟩
      = ⟨(sync_x509 [⟨"alice", ["a@x"], "sub-a", none⟩]
            ⟨[], [], ["RSE1"], [], [], [], []⟩).trace,
         (sync_x509 [⟨"alice", ["a@x"], "sub-a", none⟩]
            ⟨[], [], ["RSE1"], [], [], [], []⟩).log,
         (sync_x509 [⟨"alice", ["a@x"], "sub-a", none⟩]
            ⟨[], [], ["RSE1"], [], [], [], []⟩).state, some PyErr.indexError⟩) :=
  ⟨rfl, by decide, by decide, by decide,
   C9_empty_email_aborts "I" [⟨"alice", ["a@x"], "sub-a", none⟩]
     [⟨"carl", ["c@x"], "sub-c", none⟩] ⟨"bea", [], "sub-b", none⟩
     ⟨[], [], ["RSE1"], [], [], [], []⟩ rfl (by decide) (by decide) (by decide)⟩

/-- C10: the DN transform is not injective — the distinct subject DNs
`"A,B"` and `"B/A"` both map to the canonical key `"/B/A"`. -/
theorem C10_dn_not_injective :
    make_gridmap_compatible "A,B" = "/B/A" ∧
    make_gridmap_compatible "B/A" = "/B/A" ∧
    ("A,B" : String) ≠ "B/A" := by
  decide

/-- C6: running the account pass a second time over an identical user
set, starting from the store state the first (error-free) run produced,
submits only `account_exists` probes: zero account creations, zero
quota grants, and zero attribute attaches — those calls happen only in
the branch where a new account was just created. -/
theorem C6_second_run_idempotent (us : List IamUser) (s : RucioState)
    (h : (sync_accounts us s).err = none) :
    ((sync_accounts us (sync_accounts us s).state).trace.all isProbe) = true := by
  apply sync_accounts_second_run
  · intro u hu
    exact (sync_accounts_ok_all us s h u hu).1
  · intro u hu hlen
    exact (sync_accounts_ok_all us s h u hu).2 hlen

/-- C6 witness: a concrete second run over one user after a successful
first run consists of probes only. -/
theorem C6_second_run_idempotent_witness :
    (sync_accounts [uAlice] emptyStore).err = none ∧
    ((sync_accounts [uAlice] (sync_accounts [uAlice] emptyStore).state).trace.all isProbe)
      = true :=
  ⟨by decide, C6_second_run_idempotent [uAlice] emptyStore (by decide)⟩

/-- C7 amended: in the account pass, an account-creation failure for
one user is not caught: the `storeError` escapes, aborting the pass —
the failing probe-and-create calls are the last calls submitted, no
report entry or log line records the failure, and the remaining users
are never processed. -/
theorem C7_amended_creation_failure_aborts (us vs : List IamUser) (u : IamUser)
    (s : RucioState) (e : String)
    (h1 : (sync_accounts us s).err = none)
    (he : u.emails.head? = some e) (hlen : u.userName.length ≤ 25)
    (hex : account_exists (sync_accounts us s).state u.userName = false)
    (hadd : add_account (sync_accounts us s).state u.userName e = none) :
    sync_accounts (us ++ u :: vs) s
      = ⟨(sync_accounts us s).trace
           ++ [Call.accountExistsQ u.userName, Call.addAccount u.userName e],
         (sync_accounts us s).log,
         (sync_accounts us s).state, some PyErr.storeError⟩ := by
  have hstep := sync_accounts_user_create_fail u (sync_accounts us s).state e he hlen hex hadd
  rw [sync_accounts_append us (u :: vs) s h1,
    sync_accounts_cons_fail u vs (sync_accounts us s).state PyErr.storeError
      (by rw [hstep])]
  rw [hstep]
  simp

/-- C7 witness: a concrete run where creation fails for the second
user and the third user is never reached. -/
theorem C7_amended_creation_failure_aborts_witness :
    (sync_accounts [uAlice] failStore).err = none ∧
    uCarol.emails.head? = some "c@x" ∧
    uCarol.userName.length ≤ 25 ∧
    account_exists (sync_accounts [uAlice] failStore).state uCarol.userName = false ∧
    add_account (sync_accounts [uAlice] failStore).state uCarol.userName "c@x" = none ∧
    sync_accounts ([uAlice] ++ uCarol :: [uDave]) failStore
      = ⟨(sync_accounts [uAlice] failStore).trace
           ++ [Call.accountExistsQ uCarol.userName, Call.addAccount uCarol.userName "c@x"],
         (sync_accounts [uAlice] failStore).log,
         (sync_accounts [uAlice] failStore).state, some PyErr.storeError⟩ :=
  ⟨by decide, rfl, by decide, by decide, by decide,
   C7_amended_creation_failure_aborts [uAlice] [uDave] uCarol failStore "c@x"
     (by decide) rfl (by decide) (by decide) (by decide)⟩

/-- C8 amended: in the OIDC and X509 passes every store failure of a
link call is caught and silently ignored — the pass continues with the
next user and the next certificate exactly as if the failing record had
succeeded-with-no-effect — but no report exists: the failed link leaves
no log line and no failure count anywhere in the pass output. -/
theorem C8_amended_fire_and_forget :
    (∀ (iss : String) (us vs : List IamUser) (k : IamUser) (s : RucioState) (e : String),
      (sync_oidc iss us s).err = none →
      k.emails.head? = some e →
      k.userName.length ≤ 25 →
      add_account_identity (sync_oidc iss us s).state
          ("SUB=" ++ k.id ++ ", ISS=" ++ iss) IdType.OIDC k.userName e = none →
      sync_oidc iss (us ++ k :: vs) s
        = ⟨(sync_oidc iss us s).trace
             ++ Call.addIdentity ("SUB=" ++ k.id ++ ", ISS=" ++ iss) IdType.OIDC k.userName e
               :: (sync_oidc iss vs (sync_oidc iss us s).state).trace,
           (sync_oidc iss us s).log ++ (sync_oidc iss vs (sync_oidc iss us s).state).log,
           (sync_oidc iss vs (sync_oidc iss us s).state).state,
           (sync_oidc iss vs (sync_oidc iss us s).state).err⟩) ∧
    (∀ (w : IamUser) (sx : RucioState) (e d1 : String) (rest : List Certificate),
      w.emails.head? = some e →
      w.indigoUser = some ⟨some (⟨some d1⟩ :: rest)⟩ →
      add_account_identity sx (make_gridmap_compatible d1) IdType.X509 w.userName e = none →
      (sync_x509 [w] sx).trace
        = Call.addIdentity (make_gridmap_compatible d1) IdType.X509 w.userName e
            :: (sync_x509_cert w.userName e rest sx).1) := by
  constructor
  · intro iss us vs k s e h1 he hlen hf
    have hstep := sync_oidc_user_fail iss k (sync_oidc iss us s).state e he hlen hf
    rw [sync_oidc_append iss us (k :: vs) s h1,
      sync_oidc_cons_ok iss k vs (sync_oidc iss us s).state (by rw [hstep])]
    rw [hstep]
    simp
  · intro w sx e d1 rest he hc hf
    have h := sync_x509_user_cert_fail w sx e d1 rest he hc hf
    rw [show sync_x509 [w] sx = runPass sync_x509_user [w] sx from rfl,
      runPass_single]
    exact h.1

/-- C8 witness: concrete fire-and-forget runs — an OIDC pass where the
middle user's link fails and the following user is still processed, and
an X509 pass where the only certificate's link fails. -/
theorem C8_amended_fire_and_forget_witness :
    (sync_oidc "I" [uAlice] emptyStore).err = none ∧
    uKay.emails.head? = some "k@x" ∧
    uKay.userName.length ≤ 25 ∧
    add_account_identity (sync_oidc "I" [uAlice] emptyStore).state
        ("SUB=" ++ uKay.id ++ ", ISS=" ++ "I") IdType.OIDC uKay.userName "k@x" = none ∧
    sync_oidc "I" ([uAlice] ++ uKay :: [uAlice]) emptyStore
      = ⟨(sync_oidc "I" [uAlice] emptyStore).trace
           ++ Call.addIdentity ("SUB=" ++ uKay.id ++ ", ISS=" ++ "I") IdType.OIDC
               uKay.userName "k@x"
             :: (sync_oidc "I" [uAlice] (sync_oidc "I" [uAlice] emptyStore).state).trace,
         (sync_oidc "I" [uAlice] emptyStore).log
           ++ (sync_oidc "I" [uAlice] (sync_oidc "I" [uAlice] emptyStore).state).log,
         (sync_oidc "I" [uAlice] (sync_oidc "I" [uAlice] emptyStore).state).state,
         (sync_oidc "I" [uAlice] (sync_oidc "I" [uAlice] emptyStore).state).err⟩ ∧
    uAlice.emails.head? = some "a@x" ∧
    uAlice.indigoUser = some ⟨some (⟨some "CN=A"⟩ :: [])⟩ ∧
    add_account_identity emptyStore (make_gridmap_compatible "CN=A") IdType.X509
        uAlice.userName "a@x" = none ∧
    (sync_x509 [uAlice] emptyStore).trace
      = Call.addIdentity (make_gridmap_compatible "CN=A") IdType.X509 uAlice.userName "a@x"
          :: (sync_x509_cert uAlice.userName "a@x" [] emptyStore).1 :=
  ⟨by decide, rfl, by decide, by decide,
   C8_amended_fire_and_forget.1 "I" [uAlice] [uAlice] uKay emptyStore "k@x"
     (by decide) rfl (by decide) (by decide),
   rfl, rfl, by decide,
   C8_amended_fire_and_forget.2 uAlice emptyStore "a@x" "CN=A" [] rfl rfl (by decide)⟩

/-- C5 amended: the engine probes before creating — in the account
pass every `add_account` call in the submitted trace is immediately
preceded by an `account_exists` probe for the same username — but the
identity-link calls of the OIDC and X509 passes are submitted without
any existence probe: their traces contain no probe call at all. -/
theorem C5_amended_probe_discipline :
    (∀ (us : List IamUser) (s : RucioState),
        createProbed (sync_accounts us s).trace = true) ∧
    (∀ (iss : String) (us : List IamUser) (s : RucioState),
        probeFree (sync_oidc iss us s).trace = true) ∧
    (∀ (us : List IamUser) (s : RucioState),
        probeFree (sync_x509 us s).trace = true) :=
  ⟨fun us s => sync_accounts_createProbed us s,
   fun iss us s => runPass_probeFree (sync_oidc_user iss)
     (sync_oidc_user_probeFree iss) us s,
   fun us s => runPass_probeFree sync_x509_user sync_x509_user_probeFree us s⟩

end IamRucioSync
